import Mathlib

/-!
A shallow embedding of the statement splitter (`src/parser/statement/splitter.rs`)
and of the job model (`src/shell/job.rs`) of the ion shell, together with proofs
about the claims of the specification.

Strings are modelled as lists of bytes (`List Nat`); all concrete inputs are
ASCII, for which `Rust str::trim` coincides with trimming the ASCII whitespace
bytes.  The `u8`/`i8` nesting counters of the splitter are modelled as `Int`
with exact arithmetic (no input considered here approaches a nesting depth of
128, where a debug-mode Rust build would abort on overflow).
-/

/-- Bytes of an ASCII string. -/
def bs (s : String) : List Nat := s.data.map (fun ch => ch.toNat)

/-- The ASCII whitespace bytes trimmed by `str::trim`. -/
def isWsByte (b : Nat) : Bool :=
  b = 32 || b = 9 || b = 10 || b = 11 || b = 12 || b = 13

/-- Rust str::trim on an ASCII byte list. -/
def trimBytes (l : List Nat) : List Nat :=
  ((l.dropWhile isWsByte).reverse.dropWhile isWsByte).reverse

/-- The byte slice `data[a..b]`. -/
def sliceBytes (data : List Nat) (a b : Nat) : List Nat :=
  (data.drop a).take (b - a)

/-- Helper is_invalid of splitter.rs: true iff the byte matches `[^A-Za-z0-9_]`. -/
def is_invalid (b : Nat) : Bool :=
  b ≤ 47 || (58 ≤ b && b ≤ 64) || (91 ≤ b && b ≤ 94) || b = 96 ||
    (123 ≤ b && b ≤ 127)

/-- The byte ranges of the `VBRACE` arm of splitter.rs
(`0...43 | 45...47 | 59...64 | 91...94 | 96 | 123...124 | 126...127`). -/
def vbraceInvalid (b : Nat) : Bool :=
  b ≤ 43 || (45 ≤ b && b ≤ 47) || (59 ≤ b && b ≤ 64) || (91 ≤ b && b ≤ 94) ||
    b = 96 || (123 ≤ b && b ≤ 124) || (126 ≤ b && b ≤ 127)

/-- The StatementError enum of splitter.rs.  `InvalidCharacter` carries the byte and
the one-based position, `IllegalCommandName` the offending statement bytes. -/
inductive StatementError where
  | IllegalCommandName (s : List Nat)
  | InvalidCharacter (c : Nat) (pos : Nat)
  | UnterminatedSubshell
  | UnterminatedBracedVar
  | UnterminatedBrace
  | UnterminatedMethod
  | UnterminatedArithmetic
  | ExpectedCommandButFound (kind : String)
  deriving DecidableEq

/-- The persistent state of `StatementSplitter`: the read offset, the nine
flags of the `Flags` bitset, and the five nesting counters. -/
structure Scanner where
  read : Nat
  dquote : Bool
  comm1 : Bool
  comm2 : Bool
  vbrace : Bool
  arr : Bool
  variab : Bool
  method : Bool
  mathexpr : Bool
  postMath : Bool
  aLevel : Int
  apLevel : Int
  pLevel : Int
  braceLevel : Int
  mathParenLevel : Int
  deriving DecidableEq

/-- The state built by StatementSplitter::new. -/
def initScanner : Scanner :=
  { read := 0, dquote := false, comm1 := false, comm2 := false, vbrace := false
  , arr := false, variab := false, method := false, mathexpr := false
  , postMath := false, aLevel := 0, apLevel := 0, pLevel := 0, braceLevel := 0
  , mathParenLevel := 0 }

/-- Sub-byte scanning mode inside one `next()` call: `skipOne` is the byte
skipped after a backslash, `inSQuote`/`sQuoteSkip` are the states of the
`single_quote` helper loop (the latter after a backslash inside the region).
The Rust code consumes these bytes inside one iterator step; consuming them
one byte at a time through a mode is behaviourally identical. -/
inductive Mode where
  | normal
  | skipOne
  | inSQuote
  | sQuoteSkip
  deriving DecidableEq

/-- The per-call local variables of `next()`. -/
structure Locals where
  mode : Mode
  firstArg : Bool
  elseFound : Bool
  elsePos : Nat
  error : Option StatementError
  deriving DecidableEq

def initLocals : Locals :=
  { mode := Mode.normal, firstArg := false, elseFound := false, elsePos := 0
  , error := none }

/-- One yielded item: `Ok(statement)` or `Err(error)`. -/
inductive TokItem where
  | ok (stmt : List Nat)
  | err (e : StatementError)
  deriving DecidableEq

/-- Result of one `next()` call: end of iteration, one item, or an
out-of-bounds index panic. -/
inductive NextOut where
  | done (s : Scanner)
  | item (r : TokItem) (s : Scanner)
  | panicOut
  deriving DecidableEq

/-- Result of processing one byte inside the scan loop. -/
inductive StepOut where
  | cont (s : Scanner) (l : Locals)
  | emit (r : TokItem) (s : Scanner)
  | panicO
  deriving DecidableEq

/-- The `self.flags -= COMM_1 | COMM_2` at the end of each loop iteration. -/
def clearComms (s : Scanner) : Scanner :=
  { s with comm1 := false, comm2 := false }

/-- Record an error only if none was recorded yet (`if error.is_none()`). -/
def recordErr (l : Locals) (e : StatementError) : Locals :=
  match l.error with
  | some _ => l
  | none => { l with error := some e }

def elseWord : List Nat := bs "else"
def ifWord : List Nat := bs "if"

/-- Space or tab, the bytes accepted before a comment sign
(the arm matching on space and tab in the comment guard). -/
def isWsTabByte (b : Nat) : Bool := b = 32 || b = 9

/-- Terminator arms of the scan-loop match: statement end at an unquoted,
unnested semicolon, comment handling, the two space arms driving the
else-detection, and the final catch-all arm ending an identifier scan.
These are the last arms of the match in StatementSplitter::next; `s.read`
has already been incremented past `c`. -/
def stepTerminator (data : List Nat) (start : Nat) (s : Scanner) (l : Locals)
    (c : Nat) : StepOut :=
  if c = 59 ∧ ¬s.dquote ∧ s.pLevel = 0 ∧ s.apLevel = 0 then
    StepOut.emit
      (match l.error with
       | some e => TokItem.err e
       | none => TokItem.ok (trimBytes (sliceBytes data start (s.read - 1)))) s
  else if c = 35 ∧ (s.read = 1 ∨ (¬s.dquote ∧ s.pLevel + s.apLevel = 0 ∧
      isWsTabByte (data.getD (s.read - 2) 0))) then
    StepOut.emit
      (match l.error with
       | some e => TokItem.err e
       | none => TokItem.ok (trimBytes (sliceBytes data start (s.read - 1))))
      { s with read := data.length }
  else if c = 32 ∧ l.elseFound then
    -- output = trimBytes (sliceBytes data l.elsePos (s.read - 1))
    if trimBytes (sliceBytes data l.elsePos (s.read - 1)) ≠ [] ∧
        trimBytes (sliceBytes data l.elsePos (s.read - 1)) ≠ ifWord then
      StepOut.emit (TokItem.ok elseWord) { s with read := l.elsePos }
    else
      StepOut.cont (clearComms s) { l with elseFound := false }
  else if c = 32 ∧ ¬l.firstArg then
    -- output = trimBytes (sliceBytes data start (s.read - 1))
    StepOut.cont (clearComms s)
      (if trimBytes (sliceBytes data start (s.read - 1)) = [] then l
       else if trimBytes (sliceBytes data start (s.read - 1)) = elseWord then
         { l with elseFound := true, elsePos := s.read }
       else { l with firstArg := true })
  else
    StepOut.cont
      (clearComms (if (s.variab ∨ s.arr) ∧ is_invalid c then
        { s with variab := false, arr := false } else s)) l

/-- Closing-paren arms of the scan-loop match, in source order; falls
through to `stepTerminator`. -/
def stepCloseParen (data : List Nat) (start : Nat) (s : Scanner) (l : Locals)
    (c : Nat) : StepOut :=
  if c = 41 ∧ s.mathexpr then
    if s.mathParenLevel = 0 then
      if data.length ≤ s.read then
        StepOut.cont (clearComms s) (recordErr l StatementError.UnterminatedArithmetic)
      else
        match data.get? s.read with
        | none => StepOut.cont (clearComms s) l   -- unreachable: s.read < data.length
        | some nc =>
          if nc = 41 then
            StepOut.cont (clearComms { s with mathexpr := false, postMath := true }) l
          else
            StepOut.cont (clearComms s) (recordErr l (StatementError.InvalidCharacter nc s.read))
    else
      StepOut.cont (clearComms { s with mathParenLevel := s.mathParenLevel - 1 }) l
  else if c = 41 ∧ s.method ∧ s.pLevel = 0 then
    StepOut.cont (clearComms { s with method := false }) l
  else if c = 41 ∧ s.pLevel + s.apLevel = 0 then
    StepOut.cont (clearComms s)
      (if ¬s.dquote then recordErr l (StatementError.InvalidCharacter c s.read) else l)
  else if c = 41 ∧ s.pLevel ≠ 0 then
    StepOut.cont (clearComms { s with pLevel := s.pLevel - 1 }) l
  else if c = 41 then
    StepOut.cont (clearComms { s with apLevel := s.apLevel - 1 }) l
  else
    stepTerminator data start s l c

/-- Opening-paren arms of the scan-loop match, in source order; the third
arm holds the unguarded `self.data.as_bytes()[self.read]` look-ahead that
decides between an arithmetic expression and a command substitution.  Falls
through to `stepCloseParen`. -/
def stepOpenParen (data : List Nat) (start : Nat) (s : Scanner) (l : Locals)
    (c : Nat) : StepOut :=
  if c = 40 ∧ s.mathexpr then
    StepOut.cont (clearComms { s with mathParenLevel := s.mathParenLevel + 1 }) l
  else if c = 40 ∧ ¬(s.comm1 ∨ s.variab ∨ s.arr) then
    StepOut.cont (clearComms s)
      (if ¬s.dquote then recordErr l (StatementError.InvalidCharacter c s.read) else l)
  else if c = 40 ∧ (s.comm1 ∨ s.method) then
    match data.get? s.read with
    | none => StepOut.panicO
    | some b =>
      if b = 40 then
        StepOut.cont
          (clearComms { s with variab := false, arr := false, comm1 := false, mathexpr := true, mathParenLevel := -1 }) l
      else
        StepOut.cont
          (clearComms { s with variab := false, arr := false, pLevel := s.pLevel + 1 }) l
  else if c = 40 ∧ s.comm2 then
    StepOut.cont (clearComms { s with apLevel := s.apLevel + 1 }) l
  else if c = 40 ∧ (s.variab ∨ s.arr) then
    StepOut.cont (clearComms { s with variab := false, arr := false, method := true }) l
  else
    stepCloseParen data start s l c

/-- Brace arms of the scan-loop match, in source order; falls through to
`stepOpenParen`. -/
def stepBrace (data : List Nat) (start : Nat) (s : Scanner) (l : Locals)
    (c : Nat) : StepOut :=
  if c = 123 ∧ (s.comm1 ∨ s.comm2) then
    StepOut.cont (clearComms { s with vbrace := true }) l
  else if c = 123 ∧ ¬s.dquote then
    StepOut.cont (clearComms { s with braceLevel := s.braceLevel + 1 }) l
  else if c = 125 ∧ s.vbrace then
    StepOut.cont (clearComms { s with vbrace := false }) l
  else if c = 125 ∧ ¬s.dquote then
    if s.braceLevel = 0 then
      StepOut.cont (clearComms s) (recordErr l (StatementError.InvalidCharacter c s.read))
    else
      StepOut.cont (clearComms { s with braceLevel := s.braceLevel - 1 }) l
  else
    stepOpenParen data start s l c

/-- Quote and sigil arms of the scan-loop match, in source order; the `@`
and `$` arms end in `continue` and hence skip the end-of-iteration COMM
clearing.  Falls through to `stepBrace`. -/
def stepQuoteSigil (data : List Nat) (start : Nat) (s : Scanner) (l : Locals)
    (c : Nat) : StepOut :=
  if c = 39 ∧ ¬s.dquote then
    -- single quote: enter the single_quote helper loop
    StepOut.cont (clearComms { s with variab := false, arr := false })
      { l with mode := Mode.inSQuote }
  else if c = 34 then
    StepOut.cont (clearComms { s with dquote := !s.dquote, variab := false, arr := false }) l
  else if c = 64 then
    StepOut.cont { s with comm1 := false, comm2 := true, arr := true } l
  else if c = 36 then
    StepOut.cont { s with comm2 := false, comm1 := true, variab := true } l
  else
    stepBrace data start s l c

/-- The body of the scan loop of StatementSplitter::next, for one byte `c`.
The scanner `s` has already had `read` incremented past `c` (mirroring the
increment before the match), and `start` is the statement start offset.
The match arms appear in source order, split across the helper functions
above; the backslash/single-quote sub-consumptions are carried by `l.mode`. -/
def stepByte (data : List Nat) (start : Nat) (s : Scanner) (l : Locals)
    (c : Nat) : StepOut :=
  match l.mode with
  | Mode.skipOne => StepOut.cont s { l with mode := Mode.normal }
  | Mode.sQuoteSkip => StepOut.cont s { l with mode := Mode.inSQuote }
  | Mode.inSQuote =>
      if c = 92 then StepOut.cont s { l with mode := Mode.sQuoteSkip }
      else if c = 39 then StepOut.cont s { l with mode := Mode.normal }
      else StepOut.cont s l
  | Mode.normal =>
    if c = 92 then
      StepOut.cont (clearComms s) { l with mode := Mode.skipOne }
    else if s.postMath then
      StepOut.cont (clearComms { s with postMath := false }) l
    else if s.vbrace ∧ vbraceInvalid c then
      StepOut.cont (clearComms s) (recordErr l (StatementError.InvalidCharacter c s.read))
    else
      stepQuoteSigil data start s l c

/-- The item produced by the end-of-input code of `next()` when at least one
byte was consumed: a recorded error wins; otherwise the unterminated checks
run in source order (subshell, method, braced var, brace, arithmetic);
otherwise the remaining trimmed text is classified. -/
def eofItem (data : List Nat) (start : Nat) (s : Scanner)
    (error : Option StatementError) : TokItem :=
  match error with
  | some e => TokItem.err e
  | none =>
    if s.pLevel ≠ 0 ∨ s.apLevel ≠ 0 ∨ s.aLevel ≠ 0 then
      TokItem.err StatementError.UnterminatedSubshell
    else if s.method then
      TokItem.err StatementError.UnterminatedMethod
    else if s.vbrace then
      TokItem.err StatementError.UnterminatedBracedVar
    else if s.braceLevel ≠ 0 then
      TokItem.err StatementError.UnterminatedBrace
    else if s.mathexpr then
      TokItem.err StatementError.UnterminatedArithmetic
    else
      -- output = trimBytes (data.drop start), classified by its first byte
      match trimBytes (data.drop start) with
      | [] => TokItem.ok []
      | b :: rest =>
        if b = 62 ∨ b = 60 ∨ b = 94 then
          TokItem.err (StatementError.ExpectedCommandButFound "redirection")
        else if b = 124 then
          TokItem.err (StatementError.ExpectedCommandButFound "pipe")
        else if b = 38 then
          TokItem.err (StatementError.ExpectedCommandButFound "&")
        else if b = 42 ∨ b = 37 ∨ b = 63 ∨ b = 123 ∨ b = 125 then
          TokItem.err (StatementError.IllegalCommandName (b :: rest))
        else
          TokItem.ok (b :: rest)

/-- The code after the scan loop of `next()`: end-of-input handling.  With
no byte consumed the iterator is exhausted; otherwise the read offset is
reset to the input length and `eofItem` classifies the final statement. -/
def eofResult (data : List Nat) (start : Nat) (s : Scanner)
    (error : Option StatementError) : NextOut :=
  if start = s.read then NextOut.done s
  else NextOut.item (eofItem data start s error) { s with read := data.length }

/-- The scan loop of `next()`, one byte per recursive call; `rest` is the
suffix of `data` from offset `s.read`. -/
def nextLoop (data : List Nat) (start : Nat) :
    List Nat → Scanner → Locals → NextOut
  | [], s, l => eofResult data start s l.error
  | c :: rest, s, l =>
    match stepByte data start { s with read := s.read + 1 } l c with
    | StepOut.cont s2 l2 => nextLoop data start rest s2 l2
    | StepOut.emit r s2 => NextOut.item r s2
    | StepOut.panicO => NextOut.panicOut

/-- One `Iterator::next` call of `StatementSplitter`. -/
def nextStatement (data : List Nat) (s : Scanner) : NextOut :=
  nextLoop data s.read (data.drop s.read) s initLocals

/-- An element of the collected output of the splitter. -/
inductive TokRes where
  | ok (stmt : List Nat)
  | err (e : StatementError)
  | panicked
  deriving DecidableEq

def tokenizeAux (data : List Nat) : Nat → Scanner → List TokRes
  | 0, _ => []
  | fuel + 1, s =>
    match nextStatement data s with
    | NextOut.done _ => []
    | NextOut.item (TokItem.ok st) s2 => TokRes.ok st :: tokenizeAux data fuel s2
    | NextOut.item (TokItem.err e) s2 => TokRes.err e :: tokenizeAux data fuel s2
    | NextOut.panicOut => [TokRes.panicked]

/-- Collecting the whole iterator, StatementSplitter::new(data).collect().  Each emitted item strictly
advances the read offset, which never exceeds `data.length`, so a fuel of
`data.length + 1` covers every run. -/
def tokenize (data : List Nat) : List TokRes :=
  tokenizeAux data (data.length + 1) initScanner

/-- Joining statements back with `;`. -/
def joinSemicolon (l : List (List Nat)) : List Nat :=
  List.intercalate [59] l

/-! ## Reachable states and the nesting-counter invariant -/

/-- States reachable during a splitter run on `data`: `st` is the current
statement start offset, `s` the scanner state, `l` the loop locals.  The
constructors mirror how `nextLoop` and repeated `nextStatement` calls thread
the state: the initial state, a byte step that continues the loop, a byte
step that emits an item and starts the following call with fresh locals, and
the end-of-input emission (which also starts a following call). -/
inductive Reaches (data : List Nat) : Nat → Scanner → Locals → Prop where
  | init : Reaches data 0 initScanner initLocals
  | stepCont {st : Nat} {s : Scanner} {l : Locals} {c : Nat} {s2 : Scanner} {l2 : Locals} :
      Reaches data st s l →
      data.get? s.read = some c →
      stepByte data st { s with read := s.read + 1 } l c = StepOut.cont s2 l2 →
      Reaches data st s2 l2
  | stepEmit {st : Nat} {s : Scanner} {l : Locals} {c : Nat} {r : TokItem} {s2 : Scanner} :
      Reaches data st s l →
      data.get? s.read = some c →
      stepByte data st { s with read := s.read + 1 } l c = StepOut.emit r s2 →
      Reaches data s2.read s2 initLocals
  | stepEof {st : Nat} {s : Scanner} {l : Locals} {r : TokItem} {s2 : Scanner} :
      Reaches data st s l →
      data.get? s.read = none →
      eofResult data st s l.error = NextOut.item r s2 →
      Reaches data s2.read s2 initLocals

def ScanInv (data : List Nat) (s : Scanner) (l : Locals) : Prop :=
  0 ≤ s.pLevel ∧ 0 ≤ s.apLevel ∧ 0 ≤ s.braceLevel ∧ s.aLevel = 0 ∧
    (0 ≤ s.mathParenLevel ∨
      (s.mathParenLevel = -1 ∧ s.mathexpr = true ∧ s.postMath = false ∧
       s.vbrace = false ∧ l.mode = Mode.normal ∧ data.get? s.read = some 40))

def StepInvOut (data : List Nat) : StepOut → Prop
  | StepOut.cont s2 l2 => ScanInv data s2 l2
  | StepOut.emit _ s2 => ScanInv data s2 initLocals
  | StepOut.panicO => True

theorem stepTerminator_inv {data : List Nat} {start : Nat} {s : Scanner} {l : Locals}
    {c : Nat} (hp : 0 ≤ s.pLevel) (hap : 0 ≤ s.apLevel) (hb : 0 ≤ s.braceLevel)
    (ha : s.aLevel = 0) (hm : 0 ≤ s.mathParenLevel) :
    StepInvOut data (stepTerminator data start s l c) := by
  unfold stepTerminator
  repeat' split
  all_goals refine ⟨?_, ?_, ?_, ?_, Or.inl ?_⟩ <;> simp_all [clearComms] <;> omega

theorem stepCloseParen_inv {data : List Nat} {start : Nat} {s : Scanner} {l : Locals}
    {c : Nat} (hp : 0 ≤ s.pLevel) (hap : 0 ≤ s.apLevel) (hb : 0 ≤ s.braceLevel)
    (ha : s.aLevel = 0) (hm : 0 ≤ s.mathParenLevel) :
    StepInvOut data (stepCloseParen data start s l c) := by
  unfold stepCloseParen
  repeat' split
  all_goals first
    | exact stepTerminator_inv hp hap hb ha hm
    | (refine ⟨?_, ?_, ?_, ?_, Or.inl ?_⟩ <;> simp_all [clearComms] <;> omega)

theorem stepOpenParen_inv {data : List Nat} {start : Nat} {s : Scanner} {l : Locals}
    {c : Nat} (hmode : l.mode = Mode.normal) (hpost : s.postMath = false)
    (hvb : s.vbrace = true → vbraceInvalid c = false)
    (hp : 0 ≤ s.pLevel) (hap : 0 ≤ s.apLevel) (hb : 0 ≤ s.braceLevel)
    (ha : s.aLevel = 0) (hm : 0 ≤ s.mathParenLevel) :
    StepInvOut data (stepOpenParen data start s l c) := by
  unfold stepOpenParen
  repeat' split
  all_goals first
    | exact stepCloseParen_inv hp hap hb ha hm
    | trivial
    | (refine ⟨?_, ?_, ?_, ?_, Or.inl ?_⟩ <;> simp_all [clearComms] <;> omega)
    | (refine ⟨?_, ?_, ?_, ?_, Or.inr ⟨?_, ?_, ?_, ?_, ?_, ?_⟩⟩ <;>
        simp_all [clearComms, vbraceInvalid])

theorem stepBrace_inv {data : List Nat} {start : Nat} {s : Scanner} {l : Locals}
    {c : Nat} (hmode : l.mode = Mode.normal) (hpost : s.postMath = false)
    (hvb : s.vbrace = true → vbraceInvalid c = false)
    (hp : 0 ≤ s.pLevel) (hap : 0 ≤ s.apLevel) (hb : 0 ≤ s.braceLevel)
    (ha : s.aLevel = 0) (hm : 0 ≤ s.mathParenLevel) :
    StepInvOut data (stepBrace data start s l c) := by
  unfold stepBrace
  repeat' split
  all_goals first
    | exact stepOpenParen_inv hmode hpost hvb hp hap hb ha hm
    | (refine ⟨?_, ?_, ?_, ?_, Or.inl ?_⟩ <;> simp_all [clearComms] <;> omega)

theorem stepQuoteSigil_inv {data : List Nat} {start : Nat} {s : Scanner} {l : Locals}
    {c : Nat} (hmode : l.mode = Mode.normal) (hpost : s.postMath = false)
    (hvb : s.vbrace = true → vbraceInvalid c = false)
    (hp : 0 ≤ s.pLevel) (hap : 0 ≤ s.apLevel) (hb : 0 ≤ s.braceLevel)
    (ha : s.aLevel = 0) (hm : 0 ≤ s.mathParenLevel) :
    StepInvOut data (stepQuoteSigil data start s l c) := by
  unfold stepQuoteSigil
  repeat' split
  all_goals first
    | exact stepBrace_inv hmode hpost hvb hp hap hb ha hm
    | (refine ⟨?_, ?_, ?_, ?_, Or.inl ?_⟩ <;> simp_all [clearComms] <;> omega)

theorem stepByte_inv {data : List Nat} {st : Nat} {s : Scanner} {l : Locals} {c : Nat}
    (hInv : ScanInv data s l) (hc : data.get? s.read = some c) :
    StepInvOut data (stepByte data st { s with read := s.read + 1 } l c) := by
  obtain ⟨mo, fa, ef, ep, er⟩ := l
  obtain ⟨hp, hap, hb, ha, hm | hsent⟩ := hInv
  · -- non-sentinel case
    cases mo
    case skipOne => exact ⟨hp, hap, hb, ha, Or.inl hm⟩
    case sQuoteSkip => exact ⟨hp, hap, hb, ha, Or.inl hm⟩
    case inSQuote =>
      simp only [stepByte]
      repeat' split
      all_goals exact ⟨hp, hap, hb, ha, Or.inl hm⟩
    case normal =>
      simp only [stepByte]
      split_ifs with h1 h2 h3
      · exact ⟨hp, hap, hb, ha, Or.inl hm⟩
      · refine ⟨?_, ?_, ?_, ?_, Or.inl ?_⟩ <;> simp_all [clearComms]
      · refine ⟨?_, ?_, ?_, ?_, Or.inl ?_⟩ <;> simp_all [clearComms]
      · refine stepQuoteSigil_inv rfl (by simpa using h2) ?_
          (by simpa using hp) (by simpa using hap) (by simpa using hb)
          (by simpa using ha) (by simpa using hm)
        intro hv
        cases hvi : vbraceInvalid c
        · rfl
        · exact absurd ⟨hv, hvi⟩ h3
  · -- sentinel: the byte under scan is the second left paren of an arithmetic
    -- expression
    obtain ⟨h1, h2, h3, h4, h5, h6⟩ := hsent
    rw [h6] at hc
    cases hc
    have h5a : mo = Mode.normal := h5
    subst h5a
    have h1a : s.mathParenLevel = -1 := h1
    have h2a : s.mathexpr = true := h2
    have h3a : s.postMath = false := h3
    have h4a : s.vbrace = false := h4
    simp only [stepByte, stepQuoteSigil, stepBrace, stepOpenParen]
    simp [h2a, h3a, h4a]
    refine ⟨?_, ?_, ?_, ?_, Or.inl ?_⟩ <;> simp_all [clearComms]

theorem eofResult_item {data : List Nat} {st : Nat} {s : Scanner}
    {er : Option StatementError} {r : TokItem} {s2 : Scanner}
    (he : eofResult data st s er = NextOut.item r s2) :
    r = eofItem data st s er ∧ s2 = { s with read := data.length } := by
  unfold eofResult at he
  split_ifs at he
  all_goals simp_all

theorem reaches_scanInv {data : List Nat} {st : Nat} {s : Scanner} {l : Locals}
    (h : Reaches data st s l) : ScanInv data s l := by
  induction h with
  | init =>
      exact ⟨by norm_num [initScanner], by norm_num [initScanner],
        by norm_num [initScanner], by norm_num [initScanner],
        Or.inl (by norm_num [initScanner])⟩
  | @stepCont st1 s1 l1 c1 s21 l21 hr hc hstep ih =>
      have h2 := @stepByte_inv data st1 s1 l1 c1 ih hc
      rw [hstep] at h2
      exact h2
  | @stepEmit st1 s1 l1 c1 r1 s21 hr hc hstep ih =>
      have h2 := @stepByte_inv data st1 s1 l1 c1 ih hc
      rw [hstep] at h2
      exact h2
  | @stepEof st1 s1 l1 r1 s21 hr hn heof ih =>
      obtain ⟨hrq, hs2⟩ := eofResult_item heof
      subst hs2
      obtain ⟨hp, hap, hb, ha, hm | hsent⟩ := ih
      · exact ⟨hp, hap, hb, ha, Or.inl hm⟩
      · have h6 := hsent.2.2.2.2.2
        rw [hn] at h6
        cases h6

/-! ## Validation: the embedded splitter reproduces the test suite of
splitter.rs (syntax_errors, processes, array_processes,
process_with_statements, comments, nested_process, nested_array_process). -/

example :
    tokenize (bs "echo (echo one); echo $( (echo one); echo ) two; echo $(echo one") =
      [TokRes.err (StatementError.InvalidCharacter 40 6),
       TokRes.err (StatementError.InvalidCharacter 40 26),
       TokRes.err (StatementError.InvalidCharacter 41 43),
       TokRes.err StatementError.UnterminatedSubshell] := by decide

example :
    tokenize (bs "echo $(seq 1 10); echo $(seq 1 10)") =
      [TokRes.ok (bs "echo $(seq 1 10)"), TokRes.ok (bs "echo $(seq 1 10)")] := by
  decide

example :
    tokenize (bs "echo @(echo one; sleep 1); echo @(echo one; sleep 1)") =
      [TokRes.ok (bs "echo @(echo one; sleep 1)"),
       TokRes.ok (bs "echo @(echo one; sleep 1)")] := by decide

example :
    tokenize (bs "echo $(seq 1 10; seq 1 10)") =
      [TokRes.ok (bs "echo $(seq 1 10; seq 1 10)")] := by decide

example :
    tokenize (bs "echo $(echo one # two); echo three # four") =
      [TokRes.ok (bs "echo $(echo one # two)"), TokRes.ok (bs "echo three")] := by
  decide

example :
    tokenize (bs "echo $(echo one $(echo two) three)") =
      [TokRes.ok (bs "echo $(echo one $(echo two) three)")] := by decide

example :
    tokenize (bs "echo @(echo @(echo one; echo two); echo two)") =
      [TokRes.ok (bs "echo @(echo @(echo one; echo two); echo two)")] := by decide

/-- Processing an unescaped semicolon with a non-zero substitution nesting
level never emits a statement: the scan continues. -/
theorem semicolon_no_emit {data : List Nat} {st : Nat} (s : Scanner) (l : Locals)
    (hp : s.pLevel ≠ 0 ∨ s.apLevel ≠ 0) :
    ∃ s2 l2, stepByte data st s l 59 = StepOut.cont s2 l2 := by
  obtain ⟨mo, fa, ef, ep, er⟩ := l
  cases mo
  case skipOne => exact ⟨_, _, rfl⟩
  case sQuoteSkip => exact ⟨_, _, rfl⟩
  case inSQuote => exact ⟨_, _, rfl⟩
  case normal =>
    simp only [stepByte, stepQuoteSigil, stepBrace, stepOpenParen, stepCloseParen,
      stepTerminator]
    norm_num
    split_ifs <;> first
      | exact ⟨_, _, rfl⟩
      | (exfalso; omega)

/-! ## Claim theorems for the splitter -/

/-- Bytes of the input of the C4 counterexample, the string of
x, space, close brace, space, dollar, open paren, y. -/
def c4Input : List Nat := [120, 32, 125, 32, 36, 40, 121]

/-- The scanner state after the single next() call on c4Input. -/
def c4Scanner : Scanner := { initScanner with read := 7, pLevel := 1 }

/-- C4 counterexample: on c4Input the scan records InvalidCharacter at the
stray close brace, then opens a command substitution that is still open at
end of input (pLevel is 1); the yielded item is the recorded
InvalidCharacter error, not UnterminatedSubshell as the claim requires. -/
theorem c4_counterexample :
    nextStatement c4Input initScanner =
      NextOut.item (TokItem.err (StatementError.InvalidCharacter 125 3)) c4Scanner ∧
    c4Scanner.pLevel ≠ 0 ∧
    TokItem.err (StatementError.InvalidCharacter 125 3) ≠
      TokItem.err StatementError.UnterminatedSubshell := by
  refine ⟨by decide, by decide, by decide⟩

/-- C4 (amended): throughout any run the nesting counters stay non-negative,
except that math_paren_level transiently holds the sentinel -1 right after
the doubled paren of an arithmetic expression (the next unread byte is then
the second left paren); and reaching end of input of a non-empty final
statement with no recorded error yields the corresponding
unterminated-construct error, checked in source order. -/
theorem c4_invariants {data : List Nat} {st : Nat} {s : Scanner} {l : Locals}
    (hr : Reaches data st s l) :
    (0 ≤ s.pLevel ∧ 0 ≤ s.apLevel ∧ 0 ≤ s.braceLevel ∧
      (0 ≤ s.mathParenLevel ∨
        (s.mathParenLevel = -1 ∧ s.mathexpr = true ∧ data.get? s.read = some 40))) ∧
    (l.error = none → st ≠ s.read →
      ((s.pLevel ≠ 0 ∨ s.apLevel ≠ 0 ∨ s.aLevel ≠ 0 →
          nextLoop data st [] s l =
            NextOut.item (TokItem.err StatementError.UnterminatedSubshell)
              { s with read := data.length }) ∧
       (s.pLevel = 0 → s.apLevel = 0 → s.aLevel = 0 → s.method = true →
          nextLoop data st [] s l =
            NextOut.item (TokItem.err StatementError.UnterminatedMethod)
              { s with read := data.length }) ∧
       (s.pLevel = 0 → s.apLevel = 0 → s.aLevel = 0 → s.method = false →
          s.vbrace = true →
          nextLoop data st [] s l =
            NextOut.item (TokItem.err StatementError.UnterminatedBracedVar)
              { s with read := data.length }) ∧
       (s.pLevel = 0 → s.apLevel = 0 → s.aLevel = 0 → s.method = false →
          s.vbrace = false → s.braceLevel ≠ 0 →
          nextLoop data st [] s l =
            NextOut.item (TokItem.err StatementError.UnterminatedBrace)
              { s with read := data.length }) ∧
       (s.pLevel = 0 → s.apLevel = 0 → s.aLevel = 0 → s.method = false →
          s.vbrace = false → s.braceLevel = 0 → s.mathexpr = true →
          nextLoop data st [] s l =
            NextOut.item (TokItem.err StatementError.UnterminatedArithmetic)
              { s with read := data.length }))) := by
  have hinv := reaches_scanInv hr
  obtain ⟨hp, hap, hb, ha, hm⟩ := hinv
  constructor
  · refine ⟨hp, hap, hb, ?_⟩
    rcases hm with hm | hsent
    · exact Or.inl hm
    · exact Or.inr ⟨hsent.1, hsent.2.1, hsent.2.2.2.2.2⟩
  · intro herr hne
    have hloop : nextLoop data st [] s l = eofResult data st s l.error := rfl
    refine ⟨?_, ?_, ?_, ?_, ?_⟩
    · intro hcond
      rw [hloop, eofResult, if_neg hne, herr]
      simp [eofItem, hcond]
    · intro h1 h2 h3 h4
      rw [hloop, eofResult, if_neg hne, herr]
      simp [eofItem, h1, h2, h3, h4]
    · intro h1 h2 h3 h4 h5
      rw [hloop, eofResult, if_neg hne, herr]
      simp [eofItem, h1, h2, h3, h4, h5]
    · intro h1 h2 h3 h4 h5 h6
      rw [hloop, eofResult, if_neg hne, herr]
      simp [eofItem, h1, h2, h3, h4, h5, h6]
    · intro h1 h2 h3 h4 h5 h6 h7
      rw [hloop, eofResult, if_neg hne, herr]
      simp [eofItem, h1, h2, h3, h4, h5, h6, h7]

/-- Bytes of a single open brace, the C4 witness input. -/
def braceInput : List Nat := [123]

/-- The scanner after scanning the single open brace. -/
def braceScanner : Scanner := { initScanner with read := 1, braceLevel := 1 }

theorem c4_invariants_witness :
    (0 : Int) ≤ braceScanner.pLevel ∧
    nextLoop braceInput 0 [] braceScanner initLocals =
      NextOut.item (TokItem.err StatementError.UnterminatedBrace)
        { braceScanner with read := 1 } := by
  have hr : Reaches braceInput 0 braceScanner initLocals :=
    Reaches.stepCont Reaches.init rfl rfl
  have h := c4_invariants hr
  refine ⟨h.1.1, ?_⟩
  exact (h.2 rfl (by decide)).2.2.2.1 (by decide) (by decide) (by decide)
    (by decide) (by decide) (by decide)

/-- C9: the extra subshell counter a_level is never touched by any scan step
and stays zero in every reachable state; hence when the end-of-input check
yields UnterminatedSubshell with no recorded error, it can only have been
triggered by p_level or ap_level being non-zero. -/
theorem c9_aLevel {data : List Nat} {st : Nat} {s : Scanner} {l : Locals}
    (hr : Reaches data st s l) :
    s.aLevel = 0 ∧
    (∀ s2 : Scanner, l.error = none →
      nextLoop data st [] s l =
        NextOut.item (TokItem.err StatementError.UnterminatedSubshell) s2 →
      s.pLevel ≠ 0 ∨ s.apLevel ≠ 0) := by
  have hinv := reaches_scanInv hr
  have ha : s.aLevel = 0 := hinv.2.2.2.1
  refine ⟨ha, ?_⟩
  intro s2 herr hout
  have hout2 : eofResult data st s l.error =
      NextOut.item (TokItem.err StatementError.UnterminatedSubshell) s2 := hout
  have hitem := (eofResult_item hout2).1
  rw [herr] at hitem
  by_cases hcond : s.pLevel ≠ 0 ∨ s.apLevel ≠ 0 ∨ s.aLevel ≠ 0
  · rcases hcond with h | h | h
    · exact Or.inl h
    · exact Or.inr h
    · exact absurd ha h
  · exfalso
    rw [eofItem, if_neg hcond] at hitem
    repeat' split at hitem
    all_goals simp_all

/-- Bytes of at sign followed by open paren, the C9 witness input. -/
def apInput : List Nat := [64, 40]

/-- The scanner after scanning the at sign and the open paren. -/
def apScanner : Scanner := { initScanner with read := 2, arr := true, apLevel := 1 }

theorem c9_aLevel_witness :
    apScanner.aLevel = 0 ∧ (apScanner.pLevel ≠ 0 ∨ apScanner.apLevel ≠ 0) := by
  have hr : Reaches apInput 0 apScanner initLocals :=
    Reaches.stepCont (Reaches.stepCont Reaches.init rfl rfl) rfl rfl
  have h := c9_aLevel hr
  exact ⟨h.1, h.2 { apScanner with read := 2 } rfl (by decide)⟩

/-- C2: the doubly nested command substitution is preserved verbatim as one
statement, and in general a semicolon scanned while the command- or
process-substitution nesting level is non-zero never terminates a statement
(the scan continues). -/
theorem c2_nesting :
    tokenize (bs "echo $(echo $(echo one; echo two); echo two)") =
      [TokRes.ok (bs "echo $(echo $(echo one; echo two); echo two)")] ∧
    ∀ (data : List Nat) (st : Nat) (s : Scanner) (l : Locals),
      s.pLevel ≠ 0 ∨ s.apLevel ≠ 0 →
      ∃ s2 l2, stepByte data st s l 59 = StepOut.cont s2 l2 := by
  constructor
  · decide
  · intro data st s l hp
    exact semicolon_no_emit s l hp

theorem c2_nesting_witness :
    ∃ s2 l2,
      stepByte [] 0 { initScanner with pLevel := 1 } initLocals 59 =
        StepOut.cont s2 l2 :=
  c2_nesting.2 [] 0 { initScanner with pLevel := 1 } initLocals
    (Or.inl (by decide))

/-- C3: the input consisting of a redirection with no command yields exactly
the ExpectedCommandButFound redirection error, and the unterminated
arithmetic input yields exactly the UnterminatedArithmetic error; neither
yields any partial successful statement. -/
theorem c3_errors :
    tokenize (bs ">echo") =
      [TokRes.err (StatementError.ExpectedCommandButFound "redirection")] ∧
    tokenize (bs "echo $((foo bar baz)") =
      [TokRes.err StatementError.UnterminatedArithmetic] := by
  exact ⟨by decide, by decide⟩

/-- C1 evidence: boundary detection is not idempotent.  Tokenizing the
single semicolon yields one empty successful statement, but joining and
re-tokenizing yields no statement at all; and on the three-statement input
(a, at sign, space, semicolon, open paren, b, semicolon, c, close paren)
the sigil and method flags leak across the semicolon boundary, so the
rejoined text tokenizes to only two statements. -/
theorem c1_not_idempotent :
    (tokenize (bs ";") = [TokRes.ok []] ∧
      joinSemicolon [[]] = [] ∧
      tokenize (joinSemicolon [[]]) = []) ∧
    (tokenize (bs "a@ ;(b;c)") =
        [TokRes.ok (bs "a@"), TokRes.ok (bs "(b"), TokRes.ok (bs "c)")] ∧
      joinSemicolon [bs "a@", bs "(b", bs "c)"] = bs "a@;(b;c)" ∧
      tokenize (joinSemicolon [bs "a@", bs "(b", bs "c)"]) =
        [TokRes.ok (bs "a@"), TokRes.ok (bs "(b;c)")]) := by
  exact ⟨⟨by decide, by decide, by decide⟩, ⟨by decide, by decide, by decide⟩⟩

/-- C10 evidence: on the two-byte input dollar, open paren, the look-ahead
read of the byte after the sigil-armed open paren is out of bounds; the
Rust indexing panics, modelled by the panicked marker. -/
theorem c10_lookahead_panics : tokenize (bs "$(") = [TokRes.panicked] := by
  decide

/-! ## The job model (src/shell/job.rs)

File handles are opaque and modelled as naturals; for the Tee copy loop the
source is modelled as the list of chunks its successive reads return, and
each sink as the list of bytes written to it so far together with a
schedule of write behaviours. -/

/-- Pipe direction, as used by job.rs (parser::pipelines::RedirectFrom):
which output stream the pipe carries to the next job. -/
inductive RedirectFrom where
  | Stdout
  | Stderr
  | Both
  deriving DecidableEq

/-- JobKind of job.rs. -/
inductive JobKind where
  | And
  | Background
  | Last
  | Or
  | Pipe (r : RedirectFrom)
  deriving DecidableEq

/-- Job of job.rs: the command name (captured from the first argument at
construction), the ordered argument list, and the sequencing kind. -/
structure Job where
  command : String
  args : List String
  kind : JobKind
  deriving DecidableEq

/-- Job::new: the command is the first argument (the Rust code indexes
args[0]; construction requires a non-empty argument list). -/
def Job.new (args : List String) (kind : JobKind) : Job :=
  { command := args.headD "", args := args, kind := kind }

/-- The slice of the shell context read by job expansion: the history
buffers, newest last (context.history.buffers). -/
structure ShellContext where
  history : List String

/-- The slice of the Shell read by job expansion. -/
structure Shell where
  context : Option ShellContext

/-- Operation of job.rs. -/
inductive Operation where
  | LastArg
  | FirstArg
  | Command
  | NoCommand
  | All

/-- expand_arg of job.rs, with the external Word Expander expand_string
passed as the function `e`: an empty expansion is replaced by a single
empty string. -/
def expand_arg (e : String → List String) (arg : String) : List String :=
  if e arg = [] then [""] else e arg

/-- get_last_arg of expand_last_command: the last word produced by the
ArgumentSplitter (passed as `aS`), or the whole buffer if there is none. -/
def get_last_arg (aS : String → List String) (buffer : String) : String :=
  ((aS buffer).getLast?).getD buffer

/-- get_first_arg of expand_last_command: skip(1).next() of the
ArgumentSplitter output. -/
def get_first_arg (aS : String → List String) (buffer : String) : String :=
  (((aS buffer).drop 1).head?).getD buffer

/-- get_command of expand_last_command: the first word. -/
def get_command (aS : String → List String) (buffer : String) : String :=
  ((aS buffer).head?).getD buffer

/-- get_args of expand_last_command: drop through the first space byte and
any following spaces; if there is no space, or nothing but spaces follow
it, the whole buffer is returned. -/
def get_args (buffer : String) : String :=
  match buffer.data.dropWhile (fun ch => ch ≠ ' ') with
  | [] => buffer
  | _ :: after =>
    match after.dropWhile (fun ch => ch = ' ') with
    | [] => buffer
    | rest => String.mk rest

/-- expand_args of expand_last_command: split the buffer into arguments and
expand each. -/
def expand_args (e aS : String → List String) (buffer : String) : List String :=
  (aS buffer).flatMap (expand_arg e)

/-- expand_last_command of job.rs: resolve a history back-reference from
the most recent history entry; no context or an empty history yields a
single empty string. -/
def expand_last_command (e aS : String → List String) (shell : Shell)
    (op : Operation) : List String :=
  match shell.context with
  | some ctx =>
    match ctx.history.getLast? with
    | some buffer =>
      (match op with
       | Operation.LastArg => expand_arg e (get_last_arg aS buffer)
       | Operation.FirstArg => expand_arg e (get_first_arg aS buffer)
       | Operation.Command => expand_arg e (get_command aS buffer)
       | Operation.NoCommand => expand_args e aS (get_args buffer)
       | Operation.All => expand_args e aS buffer)
    | none => [""]
  | none => [""]

/-- The five history back-reference tokens matched by Job::expand. -/
def histTokens : List String := ["!!", "!$", "!0", "!^", "!*"]

/-- The per-argument body of the flat_map in Job::expand: the five history
back-reference tokens are special-cased, every other argument goes to the
Word Expander through expand_arg. -/
def expandOneArg (e aS : String → List String) (shell : Shell)
    (arg : String) : List String :=
  if arg = "!!" then expand_last_command e aS shell Operation.All
  else if arg = "!$" then expand_last_command e aS shell Operation.LastArg
  else if arg = "!0" then expand_last_command e aS shell Operation.Command
  else if arg = "!^" then expand_last_command e aS shell Operation.FirstArg
  else if arg = "!*" then expand_last_command e aS shell Operation.NoCommand
  else expand_arg e arg

/-- Job::expand: the argument list is replaced by the concatenation of the
per-argument expansions; command and kind are untouched (the grow call in
the Rust code only reserves capacity). -/
def Job.expand (e aS : String → List String) (shell : Shell) (job : Job) : Job :=
  { job with args := job.args.flatMap (expandOneArg e aS shell) }

/-- The slots of a std::process::Command that the set_field macro of job.rs
can touch for the External variant: the three stdio configurations (the
program and arguments are irrelevant to the setters). -/
structure CommandModel where
  program : String
  cargs : List String
  cstdin : Option Nat
  cstdout : Option Nat
  cstderr : Option Nat
  deriving DecidableEq

/-- TeeItem of job.rs as owned by the Tee variant: an optional source
handle and a list of sink handles. -/
structure TeeHandles where
  source : Option Nat
  sinks : List Nat
  deriving DecidableEq

/-- RefinedJob of job.rs. -/
inductive RefinedJob where
  | External (cmd : CommandModel)
  | Builtin (name : String) (args : List String)
      (stdin stdout stderr : Option Nat)
  | Function (name : String) (args : List String)
      (stdin stdout stderr : Option Nat)
  | Cat (sources : List Nat) (stdin : Option Nat) (stdout : Option Nat)
  | Tee (items : Option TeeHandles × Option TeeHandles)
      (stdin stdout stderr : Option Nat)
  deriving DecidableEq

/-- RefinedJob::builtin. -/
def RefinedJob.builtin (name : String) (args : List String) : RefinedJob :=
  RefinedJob.Builtin name args none none none

/-- RefinedJob::function. -/
def RefinedJob.function (name : String) (args : List String) : RefinedJob :=
  RefinedJob.Function name args none none none

/-- RefinedJob::cat. -/
def RefinedJob.cat (sources : List Nat) : RefinedJob :=
  RefinedJob.Cat sources none none

/-- RefinedJob::tee. -/
def RefinedJob.tee (teeOut teeErr : Option TeeHandles) : RefinedJob :=
  RefinedJob.Tee (teeOut, teeErr) none none none

/-- RefinedJob::stdin: the Cat variant is special-cased to overwrite its
single shared stdin slot; the other variants go through the set_field
macro, which attaches the handle to the variant's stdin slot (for External,
through Command::stdin). -/
def RefinedJob.stdin : RefinedJob → Nat → RefinedJob
  | RefinedJob.Cat sources _ stdout, f => RefinedJob.Cat sources (some f) stdout
  | RefinedJob.External cmd, f => RefinedJob.External { cmd with cstdin := some f }
  | RefinedJob.Builtin n a _ o e2, f => RefinedJob.Builtin n a (some f) o e2
  | RefinedJob.Function n a _ o e2, f => RefinedJob.Function n a (some f) o e2
  | RefinedJob.Tee it _ o e2, f => RefinedJob.Tee it (some f) o e2

/-- RefinedJob::stdout: the Cat variant is special-cased to its stdout
slot; the other variants go through the set_field macro. -/
def RefinedJob.stdout : RefinedJob → Nat → RefinedJob
  | RefinedJob.Cat sources i _, f => RefinedJob.Cat sources i (some f)
  | RefinedJob.External cmd, f => RefinedJob.External { cmd with cstdout := some f }
  | RefinedJob.Builtin n a i _ e2, f => RefinedJob.Builtin n a i (some f) e2
  | RefinedJob.Function n a i _ e2, f => RefinedJob.Function n a i (some f) e2
  | RefinedJob.Tee it i _ e2, f => RefinedJob.Tee it i (some f) e2

/-- RefinedJob::stderr: only the set_field macro, whose catch-all arm does
nothing for Cat (the fan-in variant has no stderr slot). -/
def RefinedJob.stderr : RefinedJob → Nat → RefinedJob
  | RefinedJob.External cmd, f => RefinedJob.External { cmd with cstderr := some f }
  | RefinedJob.Builtin n a i o _, f => RefinedJob.Builtin n a i o (some f)
  | RefinedJob.Function n a i o _, f => RefinedJob.Function n a i o (some f)
  | RefinedJob.Tee it i o _, f => RefinedJob.Tee it i o (some f)
  | RefinedJob.Cat sources i o, _ => RefinedJob.Cat sources i o

/-! ## The Tee copy loop (TeeItem::write_to_all and its inner write_out) -/

/-- Behaviour of one File::write call on a sink: accept a bounded number of
bytes (clamped to at least one and at most the offered slice, so that
accepting fewer than offered models a short write), or fail with an I/O
error.  An exhausted schedule accepts every offered byte. -/
inductive WAction where
  | accept (n : Nat)
  | fail
  deriving DecidableEq

/-- A sink stream: the bytes written to it so far and the schedule of its
future write behaviours. -/
structure Sink where
  written : List Nat
  sched : List WAction
  deriving DecidableEq

/-- The inner per-sink retry loop of write_out: write buf[total..] and
repeat until the whole chunk is accepted, propagating a write error.  The
Rust loop breaks when total reaches the chunk length. -/
def writeLoop (buf : List Nat) (sink : Sink) (total : Nat) : Except Unit Sink :=
  if h : buf.length ≤ total then Except.ok sink
  else
    match sink.sched with
    | WAction.fail :: _ => Except.error ()
    | WAction.accept n :: rest =>
      writeLoop buf
        { written := sink.written ++ (buf.drop total).take (min (max 1 n) (buf.length - total))
        , sched := rest }
        (total + min (max 1 n) (buf.length - total))
    | [] => Except.ok { sink with written := sink.written ++ buf.drop total }
  termination_by buf.length - total
  decreasing_by omega

/-- One pass of write_out over the sink list for one chunk: each sink gets
the whole chunk (through the retry loop); an error aborts immediately. -/
def writeChunkSinks (chunk : List Nat) : List Sink → Except Unit (List Sink)
  | [] => Except.ok []
  | s :: rest =>
    match writeLoop chunk s 0 with
    | Except.error e => Except.error e
    | Except.ok s2 =>
      match writeChunkSinks chunk rest with
      | Except.error e => Except.error e
      | Except.ok rest2 => Except.ok (s2 :: rest2)

/-- write_out of TeeItem::write_to_all: read a chunk (of at most 4096
bytes), stop with Ok on a zero-length read, otherwise copy the chunk to
every sink and continue.  `chunks` is the list of successive non-final
reads the source delivers. -/
def write_out (chunks : List (List Nat)) (sinks : List Sink) :
    Except Unit (List Sink) :=
  match chunks with
  | [] => Except.ok sinks
  | chunk :: rest =>
    if chunk.length = 0 then Except.ok sinks
    else
      match writeChunkSinks chunk sinks with
      | Except.error e => Except.error e
      | Except.ok sinks2 => write_out rest sinks2

/-- The streams of a TeeItem: the configured source (its successive reads),
or none for the process's own standard input, and the sink streams. -/
structure TeeStreams where
  source : Option (List (List Nat))
  sinks : List Sink

/-- TeeItem::write_to_all: an extra RedirectFrom::Both is a panic (the
Rust code calls panic!, modelled as none); Stdout/Stderr push the
corresponding live terminal stream onto the sink list; then write_out
copies from the configured source, or from the process standard input when
no source is configured. -/
def TeeStreams.write_to_all (tee : TeeStreams) (extra : Option RedirectFrom)
    (termOut termErr : Sink) (stdinChunks : List (List Nat)) :
    Option (Except Unit (List Sink)) :=
  match extra with
  | some RedirectFrom.Both => none
  | some RedirectFrom.Stdout =>
    some (match tee.source with
      | some chunks => write_out chunks (tee.sinks ++ [termOut])
      | none => write_out stdinChunks (tee.sinks ++ [termOut]))
  | some RedirectFrom.Stderr =>
    some (match tee.source with
      | some chunks => write_out chunks (tee.sinks ++ [termErr])
      | none => write_out stdinChunks (tee.sinks ++ [termErr]))
  | none =>
    some (match tee.source with
      | some chunks => write_out chunks tee.sinks
      | none => write_out stdinChunks tee.sinks)

/-- A write schedule with no failing entry. -/
def noFail (sched : List WAction) : Prop := ∀ a ∈ sched, a ≠ WAction.fail

/-- The retry loop writes exactly the remaining slice, never dropping or
duplicating a byte, whenever its schedule holds no failure. -/
theorem writeLoop_ok :
    ∀ (k : Nat) (buf : List Nat) (sink : Sink) (total : Nat),
      buf.length - total ≤ k → noFail sink.sched →
      ∃ s2 : Sink, writeLoop buf sink total = Except.ok s2 ∧
        s2.written = sink.written ++ buf.drop total ∧ noFail s2.sched := by
  intro k
  induction k with
  | zero =>
    intro buf sink total hk hf
    have h : buf.length ≤ total := by omega
    rw [writeLoop, dif_pos h]
    exact ⟨sink, rfl, by simp [List.drop_eq_nil_of_le h], hf⟩
  | succ k ih =>
    intro buf sink total hk hf
    by_cases h : buf.length ≤ total
    · rw [writeLoop, dif_pos h]
      exact ⟨sink, rfl, by simp [List.drop_eq_nil_of_le h], hf⟩
    · rw [writeLoop, dif_neg h]
      cases hs : sink.sched with
      | nil => exact ⟨_, rfl, rfl, by intro a ha; cases ha⟩
      | cons a rest =>
        cases a with
        | fail =>
          exact absurd rfl (hf WAction.fail (hs ▸ List.mem_cons_self _ _))
        | accept n =>
          have hf2 : noFail rest := by
            intro a ha
            exact hf a (hs ▸ List.mem_cons_of_mem _ ha)
          obtain ⟨s2, h1, h2, h3⟩ :=
            ih buf
              { written := sink.written ++ (buf.drop total).take (min (max 1 n) (buf.length - total))
              , sched := rest }
              (total + min (max 1 n) (buf.length - total)) (by omega) hf2
          refine ⟨s2, h1, ?_, h3⟩
          rw [h2]
          simp only [List.append_assoc]
          congr 1
          rw [List.drop_add, ← List.take_append_drop (min (max 1 n) (buf.length - total)) (buf.drop total)]
          simp [List.take_append_drop]

/-- One chunk pass over two sinks with failure-free schedules succeeds and
appends the chunk to each. -/
theorem writeChunkSinks_two (chunk : List Nat) (s1 s2 : Sink)
    (hf1 : noFail s1.sched) (hf2 : noFail s2.sched) :
    ∃ r1 r2 : Sink, writeChunkSinks chunk [s1, s2] = Except.ok [r1, r2] ∧
      r1.written = s1.written ++ chunk ∧ r2.written = s2.written ++ chunk ∧
      noFail r1.sched ∧ noFail r2.sched := by
  obtain ⟨r1, e1, w1, f1⟩ := writeLoop_ok chunk.length chunk s1 0 (by omega) hf1
  obtain ⟨r2, e2, w2, f2⟩ := writeLoop_ok chunk.length chunk s2 0 (by omega) hf2
  refine ⟨r1, r2, ?_, by simpa using w1, by simpa using w2, f1, f2⟩
  simp only [writeChunkSinks, e1, e2]

/-- write_out over two sinks: with non-empty chunks and failure-free
schedules it succeeds and each sink receives all the source bytes in
order. -/
theorem write_out_two (chunks : List (List Nat)) :
    ∀ s1 s2 : Sink, (∀ c ∈ chunks, c ≠ []) →
      noFail s1.sched → noFail s2.sched →
      ∃ r1 r2 : Sink, write_out chunks [s1, s2] = Except.ok [r1, r2] ∧
        r1.written = s1.written ++ chunks.join ∧
        r2.written = s2.written ++ chunks.join := by
  induction chunks with
  | nil =>
    intro s1 s2 _ _ _
    exact ⟨s1, s2, rfl, by simp, by simp⟩
  | cons chunk rest ih =>
    intro s1 s2 hc hf1 hf2
    have hcne : chunk ≠ [] := hc chunk (List.mem_cons_self _ _)
    obtain ⟨r1, r2, he, w1, w2, f1, f2⟩ := writeChunkSinks_two chunk s1 s2 hf1 hf2
    obtain ⟨t1, t2, heo, wo1, wo2⟩ :=
      ih r1 r2 (fun c h => hc c (List.mem_cons_of_mem _ h)) f1 f2
    refine ⟨t1, t2, ?_, ?_, ?_⟩
    · rw [write_out, if_neg (by simpa using hcne), he]
      exact heo
    · rw [wo1, w1]
      simp [List.join]
    · rw [wo2, w2]
      simp [List.join]

/-! ## Claim theorems for the job model -/

/-- C5: a TeeItem with a configured source and two sinks, run with
write_to_all(None), returns Ok and writes the source bytes to each sink,
byte for byte and in order, even under short writes (each sink write may
accept fewer bytes than offered; the loop retries until the chunk is
complete). -/
theorem c5_write_to_all (chunks : List (List Nat)) (s1 s2 : Sink)
    (termOut termErr : Sink) (stdinChunks : List (List Nat))
    (h1 : s1.written = []) (h2 : s2.written = [])
    (hf1 : noFail s1.sched) (hf2 : noFail s2.sched)
    (hc : ∀ c ∈ chunks, c ≠ [] ∧ c.length ≤ 4096) :
    ∃ r1 r2 : Sink,
      TeeStreams.write_to_all ⟨some chunks, [s1, s2]⟩ none termOut termErr
          stdinChunks = some (Except.ok [r1, r2]) ∧
      r1.written = chunks.join ∧ r2.written = chunks.join := by
  obtain ⟨r1, r2, he, w1, w2⟩ :=
    write_out_two chunks s1 s2 (fun c h => (hc c h).1) hf1 hf2
  refine ⟨r1, r2, ?_, ?_, ?_⟩
  · simp only [TeeStreams.write_to_all, he]
  · rw [w1, h1, List.nil_append]
  · rw [w2, h2, List.nil_append]

theorem c5_write_to_all_witness :
    ∃ r1 r2 : Sink,
      TeeStreams.write_to_all
          ⟨some [[1, 2, 3], [4]],
           [⟨[], [WAction.accept 1, WAction.accept 2]⟩, ⟨[], []⟩]⟩ none
          ⟨[], []⟩ ⟨[], []⟩ [] = some (Except.ok [r1, r2]) ∧
      r1.written = [1, 2, 3, 4] ∧ r2.written = [1, 2, 3, 4] := by
  have h := c5_write_to_all [[1, 2, 3], [4]]
    ⟨[], [WAction.accept 1, WAction.accept 2]⟩ ⟨[], []⟩ ⟨[], []⟩ ⟨[], []⟩ []
    rfl rfl (by intro a ha; simp only [List.mem_cons, List.mem_singleton] at ha; rcases ha with h | h | h <;> simp_all)
    (by intro a ha; cases ha) (by decide)
  simpa using h

/-- C6 (amended): with no history back-reference among the arguments,
Job::expand keeps the number of argument slots when every argument expands
to exactly one word; an argument whose expansion yields zero words
contributes a single empty string; and a literal expander (each non-empty
argument expanding to itself, the empty argument to no word) leaves the
job unchanged. -/
theorem c6_expand_slots (e aS : String → List String) (shell : Shell) (job : Job)
    (hnb : ∀ a ∈ job.args, a ∉ histTokens) :
    ((∀ a ∈ job.args, (e a).length = 1) →
      (Job.expand e aS shell job).args.length = job.args.length) ∧
    (∀ a ∈ job.args, e a = [] → expandOneArg e aS shell a = [""]) ∧
    ((∀ a ∈ job.args, e a = (if a = "" then [] else [a])) →
      Job.expand e aS shell job = job) := by
  have honearg : ∀ a ∈ job.args, expandOneArg e aS shell a = expand_arg e a := by
    intro a ha
    have h5 := hnb a ha
    simp only [histTokens, List.mem_cons, List.not_mem_nil, or_false, not_or] at h5
    obtain ⟨n1, n2, n3, n4, n5⟩ := h5
    simp [expandOneArg, n1, n2, n3, n4, n5]
  refine ⟨?_, ?_, ?_⟩
  · intro hone
    show (job.args.flatMap (expandOneArg e aS shell)).length = job.args.length
    have : ∀ args : List String, (∀ a ∈ args, a ∈ job.args) →
        (args.flatMap (expandOneArg e aS shell)).length = args.length := by
      intro args
      induction args with
      | nil => intro _; rfl
      | cons a t ih =>
        intro hmem
        have ha := hmem a (List.mem_cons_self _ _)
        rw [List.flatMap_cons, List.length_append, honearg a ha,
          ih (fun x hx => hmem x (List.mem_cons_of_mem _ hx))]
        have h1 := hone a ha
        by_cases hz : e a = []
        · rw [hz] at h1; simp at h1
        · rw [expand_arg, if_neg hz, h1]
          simp [Nat.add_comm]
    exact this job.args (fun a ha => ha)
  · intro a ha hz
    rw [honearg a ha, expand_arg, if_pos hz]
  · intro hlit
    show Job.mk job.command (job.args.flatMap (expandOneArg e aS shell)) job.kind = job
    have : ∀ args : List String, (∀ a ∈ args, a ∈ job.args) →
        args.flatMap (expandOneArg e aS shell) = args := by
      intro args
      induction args with
      | nil => intro _; rfl
      | cons a t ih =>
        intro hmem
        have ha := hmem a (List.mem_cons_self _ _)
        rw [List.flatMap_cons, honearg a ha,
          ih (fun x hx => hmem x (List.mem_cons_of_mem _ hx))]
        have h1 := hlit a ha
        by_cases hz : a = ""
        · subst hz
          simp only [if_true, reduceIte] at h1
          rw [expand_arg, if_pos h1]
          rfl
        · rw [if_neg hz] at h1
          rw [expand_arg, h1]
          simp [hz]
    rw [this job.args (fun a ha => ha)]
  
theorem c6_expand_slots_witness :
    Job.expand (fun a => if a = "" then [] else [a]) (fun _ => [])
        { context := none } (Job.new ["rename", "", "0", "a"] JobKind.Last) =
      Job.new ["rename", "", "0", "a"] JobKind.Last := by
  exact (c6_expand_slots (fun a => if a = "" then [] else [a]) (fun _ => [])
    { context := none } (Job.new ["rename", "", "0", "a"] JobKind.Last)
    (by decide)).2.2 (fun a _ => rfl)

/-- C6 counterexample: with a Word Expander returning two words for the
single argument (a non-empty expansion), Job::expand turns one argument
slot into two, so the slot count is not preserved by non-empty
expansions. -/
theorem c6_counterexample :
    (∀ a ∈ (Job.new ["a"] JobKind.Last).args,
      (fun (_ : String) => ["x", "y"]) a ≠ ([] : List String)) ∧
    (Job.expand (fun _ => ["x", "y"]) (fun _ => []) { context := none }
        (Job.new ["a"] JobKind.Last)).args.length ≠
      (Job.new ["a"] JobKind.Last).args.length := by
  constructor
  · intro a _
    simp
  · decide

/-- C7: a history back-reference argument with no context, or with an empty
history, expands to exactly one word, the empty string, for every Word
Expander and every argument splitter (so neither collaborator is
consulted). -/
theorem c7_history_empty (shell : Shell) (t : String) (ht : t ∈ histTokens)
    (hh : shell.context = none ∨
      ∃ ctx : ShellContext, shell.context = some ctx ∧ ctx.history = []) :
    ∀ e aS : String → List String, expandOneArg e aS shell t = [""] := by
  intro e aS
  have hlast : ∀ op : Operation, expand_last_command e aS shell op = [""] := by
    intro op
    rcases hh with h | ⟨ctx, hc, hh2⟩
    · simp [expand_last_command, h]
    · simp [expand_last_command, hc, hh2]
  simp only [histTokens, List.mem_cons, List.not_mem_nil, or_false] at ht
  rcases ht with h | h | h | h | h <;> subst h <;>
    simp [expandOneArg, hlast]

theorem c7_history_empty_witness :
    expandOneArg (fun a => [a]) (fun _ => []) { context := none } "!!" = [""] :=
  c7_history_empty { context := none } "!!" (by decide) (Or.inl rfl)
    (fun a => [a]) (fun _ => [])

/-- C8: on the fan-in Cat variant the stderr setter is the identity (Cat
has no stderr slot), and the stdin setter overwrites exactly the shared
stdin slot, leaving the source list and the stdout slot unchanged. -/
theorem c8_cat_setters (sources : List Nat) (i o : Option Nat) (f : Nat) :
    RefinedJob.stderr (RefinedJob.Cat sources i o) f = RefinedJob.Cat sources i o ∧
    RefinedJob.stdin (RefinedJob.Cat sources i o) f =
      RefinedJob.Cat sources (some f) o :=
  ⟨rfl, rfl⟩
